import Mathlib

/-!
Verification of the radar network-scanner UI layer.

The definitions below are a shallow embedding of the TypeScript sources:
the canonical service record and public-network records (types/network.ts),
the reducer-based application state (src-react/context/AppContext.tsx),
the backend bridge mapping (src-react/services/backendService.ts),
the scan hook with its client-side safety timeout (useBackendNetwork),
and the hostname-mapping hook with its multicast special case.
JavaScript numbers that hold ports, counts and millisecond durations are
embedded as Nat; optional fields become Option; JS truthiness tests are
made explicit where the source relies on them.
-/

namespace Radar

/-- Canonical discovered-service record (interface NetworkService).
`port` is optional, matching the Rust Option u16. -/
structure NetworkService where
  name : String
  address : String
  port : Option Nat
  service_type : String
  discovery_method : Option String
  details : Option String
  is_secure : Option Bool
  response_time : Option Nat
deriving DecidableEq

/-- Location record delivered to the UI (interface LocationInfo).
Coordinates are embedded as integers; no claim depends on their values. -/
structure LocationInfo where
  country : String
  country_code : String
  region : Option String
  city : Option String
  latitude : Option Int
  longitude : Option Int
  timezone : Option String
deriving DecidableEq

/-- DNS server entry (interface DNSServer). -/
structure DNSServer where
  address : String
  name : Option String
  provider : Option String
deriving DecidableEq

/-- Public network info delivered to the UI (interface PublicNetworkInfo). -/
structure PublicNetworkInfo where
  internet_available : Bool
  public_ip : Option String
  ipv6 : Option String
  isp : Option String
  org : Option String
  asn : Option String
  is_vpn : Option Bool
  is_proxy : Option Bool
  is_hosting : Option Bool
  location : Option LocationInfo
  dns_servers : Option (List DNSServer)
  error : Option String
deriving DecidableEq

/-- The app state held by the reducer (interface AppState in AppContext.tsx). -/
structure AppState where
  isScanning : Bool
  services : List NetworkService
  publicNetworkInfo : Option PublicNetworkInfo
  filter : String
deriving DecidableEq

/-- Reducer actions (type AppAction in AppContext.tsx). -/
inductive AppAction where
  | START_SCAN
  | STOP_SCAN
  | ADD_SERVICE (service : NetworkService)
  | REMOVE_SERVICE (serviceId : String)
  | UPDATE_SERVICE (service : NetworkService)
  | CLEAR_SERVICES
  | SET_PUBLIC_INFO (info : PublicNetworkInfo)
  | UPDATE_FILTER (filter : String)
deriving DecidableEq

/-- The initial reducer state (const initialState in AppContext.tsx). -/
def initialState : AppState :=
  { isScanning := false
    services := []
    publicNetworkInfo := none
    filter := "" }

/-- JS template interpolation of an optional number: undefined prints as
the string undefined. -/
def portString : Option Nat → String
  | some p => toString p
  | none => "undefined"

/-- getServiceKey in AppContext.tsx: the template string
name colon address colon port. -/
def getServiceKey (s : NetworkService) : String :=
  s.name ++ ":" ++ s.address ++ ":" ++ portString s.port

/-- The field-wise identity test used by the ADD_SERVICE branch of the
reducer: strict equality on name, address and port. -/
def sameKey (a b : NetworkService) : Bool :=
  a.name == b.name && a.address == b.address && a.port == b.port

/-- appReducer in AppContext.tsx, case by case on the action.
Logging calls have no state effect and are omitted. -/
def appReducer (state : AppState) (action : AppAction) : AppState :=
  match action with
  | .START_SCAN => { state with isScanning := true }
  | .STOP_SCAN => { state with isScanning := false }
  | .ADD_SERVICE service =>
    match state.services.find? (fun s => sameKey s service) with
    | some _ => state
    | none => { state with services := state.services ++ [service] }
  | .REMOVE_SERVICE serviceId =>
    { state with services := state.services.filter (fun s => getServiceKey s != serviceId) }
  | .UPDATE_SERVICE service =>
    { state with
        services := state.services.map
          (fun s => if getServiceKey s == getServiceKey service then service else s) }
  | .CLEAR_SERVICES => { state with services := [] }
  | .SET_PUBLIC_INFO info => { state with publicNetworkInfo := some info }
  | .UPDATE_FILTER f => { state with filter := f }

/-- The dedup decision the spec attaches to an offer. -/
inductive Decision where
  | discovered
  | unchanged
deriving DecidableEq

/-- One offer to the dedup store: the state evolves by the ADD_SERVICE
reducer action, and the decision records whether the same find that the
reducer performs located an existing entry. -/
def offer (st : AppState) (s : NetworkService) : AppState × Decision :=
  (appReducer st (.ADD_SERVICE s),
   if (st.services.find? (fun t => sameKey t s)).isSome then .unchanged else .discovered)

/-- Offering the same service n times in a row, collecting the decisions. -/
def offerTimes (st : AppState) (s : NetworkService) : Nat → AppState × List Decision
  | 0 => (st, [])
  | n + 1 =>
    let r := offer st s
    let rest := offerTimes r.1 s n
    (rest.1, r.2 :: rest.2)

theorem sameKey_refl (s : NetworkService) : sameKey s s = true := by
  simp [sameKey]

theorem offer_of_present (st : AppState) (s : NetworkService)
    (h : ∃ t ∈ st.services, sameKey t s = true) :
    offer st s = (st, .unchanged) := by
  have hfind : (st.services.find? (fun t => sameKey t s)).isSome := by
    rcases h with ⟨t, ht, hk⟩
    exact List.find?_isSome.mpr ⟨t, ht, hk⟩
  rcases hopt : st.services.find? (fun t => sameKey t s) with _ | t
  · rw [hopt] at hfind; simp at hfind
  · simp [offer, appReducer, hopt]

theorem offer_of_fresh (st : AppState) (s : NetworkService)
    (h : ∀ t ∈ st.services, sameKey t s = false) :
    offer st s = ({ st with services := st.services ++ [s] }, .discovered) := by
  have hfind : st.services.find? (fun t => sameKey t s) = none := by
    apply List.find?_eq_none.mpr
    intro t ht
    simp [h t ht]
  simp [offer, appReducer, hfind]

theorem offerTimes_of_present (st : AppState) (s : NetworkService)
    (h : ∃ t ∈ st.services, sameKey t s = true) :
    ∀ n, offerTimes st s n = (st, List.replicate n .unchanged) := by
  intro n
  induction n with
  | zero => simp [offerTimes]
  | succ m ih =>
    simp only [offerTimes, offer_of_present st s h, ih, List.replicate]

/-- loadSavedServices in the useBackendService hook: persistence is not
supported, the function always returns the empty array. -/
def loadSavedServices : List NetworkService := []

/-- A sample service record used by concrete witnesses. -/
def svcPrinter : NetworkService :=
  { name := "printer"
    address := "10.0.0.5"
    port := some 631
    service_type := "ipp"
    discovery_method := some "mdns"
    details := none
    is_secure := none
    response_time := some 10 }

/-- C1: offering one service with a fresh key n times yields exactly one
discovered decision and n minus one unchanged decisions, the n minus one
repeat offers leave the list unchanged (it stays the original list with
the service appended once), and the final list holds exactly one entry
with that key. -/
theorem dedup_idempotent (st : AppState) (s : NetworkService) (n : Nat)
    (hfresh : ∀ t ∈ st.services, sameKey t s = false) (hn : 0 < n) :
    (offerTimes st s n).2.count Decision.discovered = 1 ∧
    (offerTimes st s n).2.count Decision.unchanged = n - 1 ∧
    (offerTimes st s n).1.services = st.services ++ [s] ∧
    (offerTimes st s n).1.services.countP (fun t => sameKey t s) = 1 := by
  cases n with
  | zero => exact absurd hn (by simp)
  | succ m =>
    have hpres :
        ∃ t ∈ (st.services ++ [s]), sameKey t s = true :=
      ⟨s, by simp, sameKey_refl s⟩
    have hrest :
        offerTimes { st with services := st.services ++ [s] } s m =
          ({ st with services := st.services ++ [s] }, List.replicate m .unchanged) :=
      offerTimes_of_present _ s hpres m
    have hstep :
        offerTimes st s (m + 1) =
          ({ st with services := st.services ++ [s] },
           .discovered :: List.replicate m .unchanged) := by
      simp only [offerTimes, offer_of_fresh st s hfresh, hrest]
    refine ⟨?_, ?_, ?_, ?_⟩
    · rw [hstep]
      simp [List.count_cons, List.count_replicate]
    · rw [hstep]
      simp [List.count_cons, List.count_replicate]
    · rw [hstep]
    · rw [hstep]
      have hzero : st.services.countP (fun t => sameKey t s) = 0 := by
        apply List.countP_eq_zero.mpr
        intro t ht
        simp [hfresh t ht]
      simp [List.countP_append, hzero, List.countP_cons, sameKey_refl]

/-- Witness for C1 at a concrete input: three offers of the printer
service to the empty initial state. -/
theorem dedup_idempotent_witness :
    (∀ t ∈ initialState.services, sameKey t svcPrinter = false) ∧ 0 < 3 ∧
    ((offerTimes initialState svcPrinter 3).2.count Decision.discovered = 1 ∧
     (offerTimes initialState svcPrinter 3).2.count Decision.unchanged = 3 - 1 ∧
     (offerTimes initialState svcPrinter 3).1.services = initialState.services ++ [svcPrinter] ∧
     (offerTimes initialState svcPrinter 3).1.services.countP
       (fun t => sameKey t svcPrinter) = 1) :=
  ⟨by simp [initialState], by decide,
   dedup_idempotent initialState svcPrinter 3 (by simp [initialState]) (by decide)⟩

/-- C9: the ADD_SERVICE action changes at most the services field; the
scanning flag, the public network info and the filter are untouched in
both the append branch and the already-present branch. -/
theorem add_service_frame (st : AppState) (s : NetworkService) :
    (appReducer st (.ADD_SERVICE s)).isScanning = st.isScanning ∧
    (appReducer st (.ADD_SERVICE s)).publicNetworkInfo = st.publicNetworkInfo ∧
    (appReducer st (.ADD_SERVICE s)).filter = st.filter := by
  cases hfind : st.services.find? (fun t => sameKey t s) with
  | none => simp [appReducer, hfind]
  | some t => simp [appReducer, hfind]

/-- C7: stopping is idempotent and safe when idle: after one STOP_SCAN the
scanning flag is false, a second STOP_SCAN yields the very same state, and
STOP_SCAN on a state that is not scanning is the identity. -/
theorem stop_scan_idempotent (st : AppState) :
    (appReducer st .STOP_SCAN).isScanning = false ∧
    appReducer (appReducer st .STOP_SCAN) .STOP_SCAN = appReducer st .STOP_SCAN ∧
    (st.isScanning = false → appReducer st .STOP_SCAN = st) := by
  refine ⟨rfl, rfl, ?_⟩
  intro h
  cases st with
  | mk a b c d => simp_all [appReducer]

/-- Witness for C7 at the concrete initial state, which is not scanning. -/
theorem stop_scan_idempotent_witness :
    initialState.isScanning = false ∧ appReducer initialState .STOP_SCAN = initialState :=
  ⟨rfl, (stop_scan_idempotent initialState).2.2 rfl⟩

/-- C8: no persistence: the initial state has an empty service list and is
not scanning, and loading saved services returns the empty list. -/
theorem no_persistence :
    initialState.services = [] ∧ initialState.isScanning = false ∧
    loadSavedServices = [] :=
  ⟨rfl, rfl, rfl⟩

/-- The printer service with a changed response time. -/
def svcPrinterNew : NetworkService :=
  { svcPrinter with response_time := some 20 }

/-- C2 counterexample: offering a same-key record with a changed
response time through ADD_SERVICE does not overwrite: the stored entry
stays the old record, not the newer one, refuting the claim that the
store overwrites with the newest fields on every offer. -/
theorem later_data_wins_counterexample :
    sameKey svcPrinter svcPrinterNew = true ∧
    svcPrinterNew ≠ svcPrinter ∧
    (appReducer { initialState with services := [svcPrinter] }
        (.ADD_SERVICE svcPrinterNew)).services = [svcPrinter] := by
  decide

/-- C2 amended: an ADD_SERVICE offer whose key is already stored leaves
the state unchanged (first data wins for offers); later data wins only
through the UPDATE_SERVICE action, after which every stored entry whose
string key equals the new record key is the new record, and the new
record is stored whenever some entry carried that key before. -/
theorem later_data_wins_amended (st : AppState) (v : NetworkService) :
    ((∃ t ∈ st.services, sameKey t v = true) → appReducer st (.ADD_SERVICE v) = st) ∧
    (∀ u ∈ (appReducer st (.UPDATE_SERVICE v)).services,
        getServiceKey u = getServiceKey v → u = v) ∧
    (∀ t ∈ st.services, getServiceKey t = getServiceKey v →
        v ∈ (appReducer st (.UPDATE_SERVICE v)).services) := by
  refine ⟨?_, ?_, ?_⟩
  · intro h
    have h2 := congrArg Prod.fst (offer_of_present st v h)
    simpa [offer] using h2
  · intro u hu hk
    simp only [appReducer, List.mem_map] at hu
    obtain ⟨s, hs, heq⟩ := hu
    by_cases hc : getServiceKey s == getServiceKey v
    · exact (by simpa [hc] using heq : v = u).symm
    · rw [if_neg hc] at heq
      subst heq
      exact absurd (by simp [hk]) hc
  · intro t ht hk
    simp only [appReducer, List.mem_map]
    exact ⟨t, ht, by simp [hk]⟩

/-- Witness for C2 amended at a concrete input: the stored printer entry
is kept by a same-key ADD_SERVICE and replaced by UPDATE_SERVICE. -/
theorem later_data_wins_amended_witness :
    appReducer { initialState with services := [svcPrinter] } (.ADD_SERVICE svcPrinterNew)
      = { initialState with services := [svcPrinter] } ∧
    svcPrinterNew ∈ (appReducer { initialState with services := [svcPrinter] }
      (.UPDATE_SERVICE svcPrinterNew)).services :=
  ⟨(later_data_wins_amended _ svcPrinterNew).1 ⟨svcPrinter, by simp, by decide⟩,
   (later_data_wins_amended _ svcPrinterNew).2.2 svcPrinter (by simp) (by decide)⟩

/-- Coordinates inside the raw Rust location (RustPublicNetworkInfo). -/
structure RustCoordinates where
  latitude : Option Int
  longitude : Option Int
deriving DecidableEq

/-- Raw location block of the Rust backend response. -/
structure RustLocation where
  city : Option String
  region : Option String
  country : Option String
  postal : Option String
  timezone : Option String
  coordinates : Option RustCoordinates
deriving DecidableEq

/-- Raw backend response (interface RustPublicNetworkInfo in
backendService.ts); every field is optional. -/
structure RustPublicNetworkInfo where
  ip : Option String
  ipv6 : Option String
  internet_available : Option Bool
  asn : Option String
  isp : Option String
  org : Option String
  hostname : Option String
  local_hostname : Option String
  dns : Option (List String)
  location : Option RustLocation
  is_vpn : Option Bool
  is_proxy : Option Bool
  is_hosting : Option Bool
deriving DecidableEq

/-- JS truthiness of an optional string: undefined and the empty string
are falsy, every other string is truthy. -/
def truthyString : Option String → Bool
  | none => false
  | some s => !(s == "")

/-- JS or-default on an optional string, as in country or Unknown:
falsy values (undefined, empty string) fall back to the default. -/
def orDefault (o : Option String) (d : String) : String :=
  match o with
  | some s => if s == "" then d else s
  | none => d

/-- JS guarded assignment: the field is set only when the value is
truthy, otherwise it stays absent. -/
def optTruthy (o : Option String) : Option String :=
  match o with
  | some s => if s == "" then none else some s
  | none => none

/-- The location mapping inside BackendService.getPublicNetworkInfo:
country falls back to Unknown, country_code is not available in the Rust
response and is set to the empty string, the optional fields are copied
when truthy, and the coordinates are copied when the block is present. -/
def mapLocation (l : RustLocation) : LocationInfo :=
  { country := orDefault l.country "Unknown"
    country_code := ""
    region := optTruthy l.region
    city := optTruthy l.city
    latitude := match l.coordinates with | some c => c.latitude | none => none
    longitude := match l.coordinates with | some c => c.longitude | none => none
    timezone := optTruthy l.timezone }

/-- BackendService.getPublicNetworkInfo: maps the raw Rust record to the
frontend record; internet_available keeps a boolean backend value and
otherwise is the truthiness of the ip field. -/
def getPublicNetworkInfo (r : RustPublicNetworkInfo) : PublicNetworkInfo :=
  { internet_available :=
      match r.internet_available with
      | some b => b
      | none => truthyString r.ip
    public_ip := r.ip
    ipv6 := r.ipv6
    isp := r.isp
    org := r.org
    asn := r.asn
    is_vpn := r.is_vpn
    is_proxy := r.is_proxy
    is_hosting := r.is_hosting
    location := r.location.map mapLocation
    dns_servers :=
      match r.dns with
      | some ds =>
        if 0 < ds.length then some (ds.map fun a => ⟨a, none, none⟩) else none
      | none => none
    error := none }

/-- C10: the mapped internet_available is true exactly when the backend
sent the boolean true, or sent no boolean and a nonempty ip string; and
whenever a location block is present the mapped location has the empty
country code and a country defaulting to Unknown when missing. -/
theorem public_info_mapping (r : RustPublicNetworkInfo) :
    ((getPublicNetworkInfo r).internet_available = true ↔
      (r.internet_available = some true ∨
        (r.internet_available = none ∧ ∃ s, r.ip = some s ∧ s ≠ ""))) ∧
    (∀ l, r.location = some l →
      ∃ m, (getPublicNetworkInfo r).location = some m ∧
        m.country_code = "" ∧ (l.country = none → m.country = "Unknown")) := by
  constructor
  · cases hb : r.internet_available with
    | some b =>
      cases b <;> simp [getPublicNetworkInfo, hb]
    | none =>
      cases hip : r.ip with
      | none => simp [getPublicNetworkInfo, truthyString, hb, hip]
      | some s => simp [getPublicNetworkInfo, truthyString, hb, hip]
  · intro l hl
    refine ⟨mapLocation l, by simp [getPublicNetworkInfo, hl], rfl, ?_⟩
    intro h
    simp [mapLocation, orDefault, h]

/-- A concrete raw backend response for the C10 witness: no boolean
internet flag, a nonempty ip, and a location with no country. -/
def rustSample : RustPublicNetworkInfo :=
  { ip := some "203.0.113.7"
    ipv6 := none
    internet_available := none
    asn := none
    isp := none
    org := none
    hostname := none
    local_hostname := none
    dns := some ["9.9.9.9"]
    location := some
      { city := none, region := none, country := none, postal := none,
        timezone := none, coordinates := none }
    is_vpn := none
    is_proxy := none
    is_hosting := none }

/-- Witness for C10 at the concrete sample response. -/
theorem public_info_mapping_witness :
    (getPublicNetworkInfo rustSample).internet_available = true ∧
    ∃ m, (getPublicNetworkInfo rustSample).location = some m ∧
      m.country_code = "" ∧ m.country = "Unknown" := by
  refine ⟨(public_info_mapping rustSample).1.mpr ?_, ?_⟩
  · exact Or.inr ⟨rfl, "203.0.113.7", rfl, by decide⟩
  · obtain ⟨m, hm, hcc, hc⟩ := (public_info_mapping rustSample).2 _ rfl
    exact ⟨m, hm, hcc, hc rfl⟩

/-- JS parseInt with radix ten: leading whitespace is skipped, an
optional sign is read, then the longest digit run; no digits means NaN,
embedded as none. -/
def jsParseInt (s : String) : Option Int :=
  let cs := s.data.dropWhile (fun c => c == ' ' || c == '\t' || c == '\n' || c == '\r')
  let val : List Char → Option Int := fun rest =>
    let ds := rest.takeWhile Char.isDigit
    if ds.isEmpty then none
    else some (ds.foldl (fun acc c => acc * 10 + ((c.toNat : Int) - 48)) 0)
  match cs with
  | '-' :: rest => (val rest).map (fun n => -n)
  | '+' :: rest => val rest
  | _ => val cs

/-- Worker for the JS string split on a one-character separator: the
accumulator holds the current piece in reverse. -/
def splitCharAux (sep : Char) : List Char → List Char → List String
  | [], acc => [String.mk acc.reverse]
  | c :: rest, acc =>
    if c == sep then String.mk acc.reverse :: splitCharAux sep rest []
    else splitCharAux sep rest (c :: acc)

/-- JS String.split with a one-character separator, as in ip.split on a
dot: every separator occurrence ends a piece, empty pieces included. -/
def splitChar (sep : Char) (s : String) : List String :=
  splitCharAux sep s.data []

/-- isMulticastIP in useHostnameMapping: split on dots, require exactly
four parts, and compare the parsed first octet with 239. -/
def isMulticastIP (ip : String) : Bool :=
  match splitChar '.' ip with
  | [p0, _, _, _] => jsParseInt p0 == some 239
  | _ => false

/-- Lookup in the JS object holding the ip-to-hostname map. -/
def mapLookup (m : List (String × String)) (k : String) : Option String :=
  (m.find? (fun p => p.1 == k)).map Prod.snd

/-- Assignment into the JS object: the new binding shadows any former
binding for the key. -/
def mapInsert (m : List (String × String)) (k v : String) : List (String × String) :=
  (k, v) :: m

/-- JS falsiness of a map entry, as in the guard on newMap of the
multicast branch: absent or the empty string. -/
def jsFalsy (m : List (String × String)) (k : String) : Bool :=
  match mapLookup m k with
  | none => true
  | some s => s == ""

/-- The servicesByIp grouping of the same loop: push the service onto the
bucket of its address, creating the bucket when absent. -/
def groupAdd (g : List (String × List NetworkService)) (s : NetworkService) :
    List (String × List NetworkService) :=
  if (g.find? (fun p => p.1 == s.address)).isSome then
    g.map (fun p => if p.1 == s.address then (p.1, p.2 ++ [s]) else p)
  else g ++ [(s.address, [s])]

/-- One iteration of the services.forEach in useHostnameMapping: a
multicast address is tagged with the [Multicast] label when its entry is
falsy, every other service is routed into the per-ip grouping. -/
def tagStep (acc : List (String × String) × List (String × List NetworkService))
    (s : NetworkService) :
    List (String × String) × List (String × List NetworkService) :=
  if isMulticastIP s.address then
    if jsFalsy acc.1 s.address then (mapInsert acc.1 s.address "[Multicast]", acc.2)
    else acc
  else (acc.1, groupAdd acc.2 s)

/-- The whole forEach pass over the service list. -/
def tagRun (acc : List (String × String) × List (String × List NetworkService)) :
    List NetworkService → List (String × String) × List (String × List NetworkService)
  | [] => acc
  | s :: rest => tagRun (tagStep acc s) rest

/-- Invariant of the tagging pass: every value the map holds is the
[Multicast] label. -/
def onlyMulticastTag (m : List (String × String)) : Prop :=
  ∀ k v, mapLookup m k = some v → v = "[Multicast]"

theorem mapLookup_mapInsert_self (m : List (String × String)) (k v : String) :
    mapLookup (mapInsert m k v) k = some v := by
  simp [mapLookup, mapInsert, List.find?_cons]

theorem mapLookup_mapInsert_ne (m : List (String × String)) (k v k' : String)
    (h : k' ≠ k) : mapLookup (mapInsert m k v) k' = mapLookup m k' := by
  have hb : (k == k') = false := by
    simp [Ne.symm h]
  simp [mapLookup, mapInsert, List.find?_cons, hb]

theorem onlyMulticastTag_tagStep (acc : List (String × String) ×
    List (String × List NetworkService)) (s : NetworkService)
    (h : onlyMulticastTag acc.1) : onlyMulticastTag (tagStep acc s).1 := by
  unfold tagStep
  cases hm : isMulticastIP s.address with
  | false => simpa [hm] using h
  | true =>
    cases hf : jsFalsy acc.1 s.address with
    | false => simpa [hm, hf] using h
    | true =>
      simp only [hm, hf, if_true]
      intro k v hk
      by_cases hks : k = s.address
      · subst hks
        rw [mapLookup_mapInsert_self] at hk
        exact (Option.some_inj.mp hk).symm
      · rw [mapLookup_mapInsert_ne _ _ _ _ hks] at hk
        exact h k v hk

theorem tagStep_keeps_tag (acc : List (String × String) ×
    List (String × List NetworkService)) (s : NetworkService) (k : String)
    (h : mapLookup acc.1 k = some "[Multicast]") :
    mapLookup (tagStep acc s).1 k = some "[Multicast]" := by
  unfold tagStep
  cases hm : isMulticastIP s.address with
  | false => simpa [hm] using h
  | true =>
    cases hf : jsFalsy acc.1 s.address with
    | false => simpa [hm, hf] using h
    | true =>
      simp only [hm, hf, if_true]
      by_cases hks : k = s.address
      · subst hks
        rw [jsFalsy, h] at hf
        simp at hf
      · rw [mapLookup_mapInsert_ne _ _ _ _ hks]
        exact h

theorem tagStep_keeps_none (acc : List (String × String) ×
    List (String × List NetworkService)) (s : NetworkService) (k : String)
    (hk : isMulticastIP k = false) (h : mapLookup acc.1 k = none) :
    mapLookup (tagStep acc s).1 k = none := by
  unfold tagStep
  cases hm : isMulticastIP s.address with
  | false => simpa [hm] using h
  | true =>
    cases hf : jsFalsy acc.1 s.address with
    | false => simpa [hm, hf] using h
    | true =>
      simp only [hm, hf, if_true]
      have hks : k ≠ s.address := by
        intro he
        rw [he, hm] at hk
        simp at hk
      rw [mapLookup_mapInsert_ne _ _ _ _ hks]
      exact h

theorem tagRun_keeps_tag (l : List NetworkService) :
    ∀ acc k, mapLookup acc.1 k = some "[Multicast]" →
      mapLookup (tagRun acc l).1 k = some "[Multicast]" := by
  induction l with
  | nil => intro acc k h; simpa [tagRun] using h
  | cons s rest ih =>
    intro acc k h
    exact ih (tagStep acc s) k (tagStep_keeps_tag acc s k h)

theorem tagRun_keeps_none (l : List NetworkService) :
    ∀ acc k, isMulticastIP k = false → mapLookup acc.1 k = none →
      mapLookup (tagRun acc l).1 k = none := by
  induction l with
  | nil => intro acc k _ h; simpa [tagRun] using h
  | cons s rest ih =>
    intro acc k hk h
    exact ih (tagStep acc s) k hk (tagStep_keeps_none acc s k hk h)

theorem tagRun_tags (l : List NetworkService) :
    ∀ acc s, onlyMulticastTag acc.1 → s ∈ l → isMulticastIP s.address = true →
      mapLookup (tagRun acc l).1 s.address = some "[Multicast]" := by
  induction l with
  | nil => intro acc s _ h; simp at h
  | cons s0 rest ih =>
    intro acc s hinv hs hm
    rcases List.mem_cons.mp hs with he | ht
    · subst he
      have hafter : mapLookup (tagStep acc s).1 s.address = some "[Multicast]" := by
        unfold tagStep
        rw [hm]
        cases hf : jsFalsy acc.1 s.address with
        | true => simp [mapLookup_mapInsert_self]
        | false =>
          rcases hlk : mapLookup acc.1 s.address with _ | v
          · rw [jsFalsy, hlk] at hf; simp at hf
          · have hv := hinv s.address v hlk
            subst hv
            simpa using hlk
      exact tagRun_keeps_tag rest (tagStep acc s) s.address hafter
    · exact ih (tagStep acc s0) s (onlyMulticastTag_tagStep acc s0 hinv) ht hm

/-- A sample multicast responder and a sample regular host for the C5
witness. -/
def svcMcast : NetworkService :=
  { name := "ssdp-responder"
    address := "239.1.2.3"
    port := none
    service_type := "ssdp"
    discovery_method := some "upnp"
    details := none
    is_secure := none
    response_time := none }

/-- A regular host service on a unicast address. -/
def svcHost : NetworkService :=
  { name := "nas"
    address := "192.168.1.5"
    port := some 80
    service_type := "http"
    discovery_method := some "upnp"
    details := none
    is_secure := none
    response_time := none }

/-- C5: an address splitting into four dot-parts whose first parses to
239 is classified multicast; 239.1.2.3 is so classified and 192.168.1.5
is not; the hostname-mapping pass tags every multicast service address
with the [Multicast] label and leaves every non-multicast address
untagged. -/
theorem multicast_tagging :
    (∀ ip p0 p1 p2 p3, splitChar '.' ip = [p0, p1, p2, p3] →
        jsParseInt p0 = some 239 → isMulticastIP ip = true) ∧
    isMulticastIP "239.1.2.3" = true ∧
    isMulticastIP "192.168.1.5" = false ∧
    (∀ services, ∀ s ∈ services, isMulticastIP s.address = true →
        mapLookup (tagRun ([], []) services).1 s.address = some "[Multicast]") ∧
    (∀ services k, isMulticastIP k = false →
        mapLookup (tagRun ([], []) services).1 k = none) := by
  refine ⟨?_, by decide, by decide, ?_, ?_⟩
  · intro ip p0 p1 p2 p3 hsplit hparse
    simp [isMulticastIP, hsplit, hparse]
  · intro services s hs hm
    refine tagRun_tags services ([], []) s ?_ hs hm
    intro k v hk
    simp [mapLookup] at hk
  · intro services k hk
    exact tagRun_keeps_none services ([], []) k hk rfl

/-- Witness for C5 at the two concrete sample services. -/
theorem multicast_tagging_witness :
    isMulticastIP "239.1.2.3" = true ∧
    isMulticastIP "192.168.1.5" = false ∧
    mapLookup (tagRun ([], []) [svcMcast, svcHost]).1 "239.1.2.3" = some "[Multicast]" ∧
    mapLookup (tagRun ([], []) [svcMcast, svcHost]).1 "192.168.1.5" = none := by
  refine ⟨multicast_tagging.2.1, multicast_tagging.2.2.1, ?_, ?_⟩
  · exact multicast_tagging.2.2.2.1 [svcMcast, svcHost] svcMcast (by simp) (by decide)
  · exact multicast_tagging.2.2.2.2 [svcMcast, svcHost] "192.168.1.5" (by decide)

/-- MAX_SCAN_DURATION in the useBackendService hook: sixty seconds in
milliseconds. -/
def MAX_SCAN_DURATION : Nat := 60 * 1000

/-- The state the useBackendService hook keeps around the reducer state:
the scan start instant and the armed safety-timer deadline, both in
milliseconds on a discrete clock. -/
structure HookState where
  app : AppState
  scanStartTime : Option Nat
  timeoutDeadline : Option Nat
deriving DecidableEq

/-- The safety-timeout effect of the hook: while scanning with a start
time set, a timer is armed for the start time plus MAX_SCAN_DURATION;
otherwise any pending timer is cleared. -/
def armTimeout (h : HookState) : HookState :=
  match h.app.isScanning, h.scanStartTime with
  | true, some t => { h with timeoutDeadline := some (t + MAX_SCAN_DURATION) }
  | _, _ => { h with timeoutDeadline := none }

/-- startNetworkScan in the hook: dispatches START_SCAN, records the
start instant, and the safety effect re-arms the timer. -/
def startNetworkScan (now : Nat) (h : HookState) : HookState :=
  armTimeout { h with app := appReducer h.app .START_SCAN, scanStartTime := some now }

/-- stopNetworkScan in the hook: dispatches STOP_SCAN and clears the
start instant; the safety effect then clears the timer. -/
def stopNetworkScan (h : HookState) : HookState :=
  armTimeout { h with app := appReducer h.app .STOP_SCAN, scanStartTime := none }

/-- The armed timer observed at an instant: at or past the deadline the
callback runs stopNetworkScan; earlier, or with no timer armed, nothing
happens. -/
def timerFire (now : Nat) (h : HookState) : HookState :=
  match h.timeoutDeadline with
  | some d => if d ≤ now then stopNetworkScan h else h
  | none => h

/-- C4: a scan started at any instant with no explicit stop arms the
safety timer for exactly MAX_SCAN_DURATION, equal to sixty thousand
milliseconds, later; the timer firing at that deadline stops the scan
with no user action, and no earlier instant changes anything. -/
theorem deadline_auto_stop (h : HookState) (t0 : Nat) :
    MAX_SCAN_DURATION = 60 * 1000 ∧
    (startNetworkScan t0 h).timeoutDeadline = some (t0 + MAX_SCAN_DURATION) ∧
    (startNetworkScan t0 h).app.isScanning = true ∧
    (timerFire (t0 + MAX_SCAN_DURATION) (startNetworkScan t0 h)).app.isScanning = false ∧
    (∀ now, now < t0 + MAX_SCAN_DURATION →
      timerFire now (startNetworkScan t0 h) = startNetworkScan t0 h) := by
  refine ⟨rfl, rfl, rfl, ?_, ?_⟩
  · simp [timerFire, startNetworkScan, armTimeout, stopNetworkScan, appReducer]
  · intro now hnow
    simp [timerFire, startNetworkScan, armTimeout, appReducer, Nat.not_le.mpr hnow]

/-- Witness for C4: a scan started at instant zero from the initial
state stops at the deadline and is untouched at instant five. -/
theorem deadline_auto_stop_witness :
    (timerFire (0 + MAX_SCAN_DURATION)
      (startNetworkScan 0 ⟨initialState, none, none⟩)).app.isScanning = false ∧
    timerFire 5 (startNetworkScan 0 ⟨initialState, none, none⟩) =
      startNetworkScan 0 ⟨initialState, none, none⟩ :=
  ⟨(deadline_auto_stop ⟨initialState, none, none⟩ 0).2.2.2.1,
   (deadline_auto_stop ⟨initialState, none, none⟩ 0).2.2.2.2 5 (by decide)⟩

/-- Modelled from the spec: the Scan Coordinator lifecycle states of
section 4.4; the backend implementation is not part of the UI sources. -/
inductive CoordState where
  | Idle
  | Starting
  | Running
  | Completing
  | Cancelling
  | Failing
deriving DecidableEq

/-- Modelled from the spec: a scan is active whenever the coordinator is
not Idle. -/
def scanActive : CoordState → Bool
  | .Idle => false
  | _ => true

/-- Modelled from the spec: the command error for a start request while
a scan is active. -/
inductive CommandError where
  | AlreadyRunning
deriving DecidableEq

/-- Modelled from the spec: the backend run_network_scan command of
sections 4.4 and 6, absent from the UI sources: it fails with
AlreadyRunning unless the coordinator is Idle, and otherwise transitions
to Starting, the scan proceeding asynchronously after the command has
returned. -/
def run_network_scan (st : CoordState) : Except CommandError CoordState :=
  match st with
  | .Idle => .ok .Starting
  | _ => .error .AlreadyRunning

/-- C6: a start request while a scan is active fails with
AlreadyRunning and never silently starts a second scan; a start request
while no scan is active succeeds and leaves a scan active. -/
theorem reject_double_start (st : CoordState) :
    (scanActive st = true → run_network_scan st = .error .AlreadyRunning) ∧
    (scanActive st = false →
      ∃ st', run_network_scan st = .ok st' ∧ scanActive st' = true) := by
  cases st with
  | Idle => exact ⟨fun h => by simp [scanActive] at h, fun _ => ⟨.Starting, rfl, rfl⟩⟩
  | Starting => exact ⟨fun _ => rfl, fun h => by simp [scanActive] at h⟩
  | Running => exact ⟨fun _ => rfl, fun h => by simp [scanActive] at h⟩
  | Completing => exact ⟨fun _ => rfl, fun h => by simp [scanActive] at h⟩
  | Cancelling => exact ⟨fun _ => rfl, fun h => by simp [scanActive] at h⟩
  | Failing => exact ⟨fun _ => rfl, fun h => by simp [scanActive] at h⟩

/-- Witness for C6: a start while Running is rejected, a start while
Idle succeeds. -/
theorem reject_double_start_witness :
    run_network_scan CoordState.Running = .error .AlreadyRunning ∧
    ∃ st', run_network_scan CoordState.Idle = .ok st' ∧ scanActive st' = true :=
  ⟨(reject_double_start CoordState.Running).1 rfl,
   (reject_double_start CoordState.Idle).2 rfl⟩

/-- Modelled from the spec: one outcome in a probe output stream, either
an emitted service record or a probe-local failure (section 4.1); the
backend probes are not part of the UI sources. -/
inductive ProbeOutcome where
  | emit (r : NetworkService)
  | fail (msg : String)
deriving DecidableEq

/-- Modelled from the spec: the services a probe reports, its emissions
up to its first failure, at which it terminates gracefully. -/
def probeServices : List ProbeOutcome → List NetworkService
  | [] => []
  | .emit r :: rest => r :: probeServices rest
  | .fail _ :: _ => []

/-- Modelled from the spec: a probe failed to start when its very first
outcome is a failure, as when its protocol stack cannot bind at all. -/
def startsFailed : List ProbeOutcome → Bool
  | .fail _ :: _ => true
  | _ => false

/-- Modelled from the spec: a healthy probe never fails. -/
def healthy (p : List ProbeOutcome) : Bool :=
  p.all (fun o => match o with | .emit _ => true | .fail _ => false)

/-- Modelled from the spec: the terminal notification of a scan. -/
inductive TerminalEvent where
  | scanComplete
  | scanError (msg : String)
deriving DecidableEq

/-- Modelled from the spec: the dedup store pass over the merged probe
output: a record whose key is already stored is suppressed, a fresh key
is emitted and stored. -/
def dedupEmit (acc : List NetworkService) : List NetworkService → List NetworkService
  | [] => acc
  | s :: rest =>
    if acc.any (fun t => sameKey t s) then dedupEmit acc rest
    else dedupEmit (acc ++ [s]) rest

/-- Modelled from the spec: what a whole scan delivers to the event
sink: the deduplicated services and the terminal event. -/
structure ScanOutcome where
  emitted : List NetworkService
  terminal : TerminalEvent

/-- Modelled from the spec: runScan, the coordinator for one scan
(sections 4.4 and 7), absent from the UI sources: probe streams are
merged and deduplicated, and only the scan-fatal case in which every
probe failed to start yields scan-error; otherwise the scan completes. -/
def runScan (probes : List (List ProbeOutcome)) : ScanOutcome :=
  if !probes.isEmpty && probes.all startsFailed then
    { emitted := [], terminal := .scanError "all probes failed to start" }
  else
    { emitted := dedupEmit [] (probes.map probeServices).flatten
      terminal := .scanComplete }

theorem healthy_not_startsFailed (p : List ProbeOutcome)
    (h : healthy p = true) : startsFailed p = false := by
  cases p with
  | nil => rfl
  | cons o rest =>
    cases o with
    | emit r => rfl
    | fail m => simp [healthy] at h

theorem dedupEmit_mono (l : List NetworkService) :
    ∀ acc t, t ∈ acc → t ∈ dedupEmit acc l := by
  induction l with
  | nil => intro acc t ht; simpa [dedupEmit] using ht
  | cons s rest ih =>
    intro acc t ht
    unfold dedupEmit
    by_cases hc : acc.any (fun u => sameKey u s) = true
    · simp only [hc, if_true]
      exact ih acc t ht
    · simp only [hc, if_false]
      exact ih (acc ++ [s]) t (List.mem_append_left _ ht)

theorem dedupEmit_covers (l : List NetworkService) :
    ∀ acc r, (r ∈ acc ∨ r ∈ l) →
      ∃ t ∈ dedupEmit acc l, sameKey t r = true := by
  induction l with
  | nil =>
    intro acc r hr
    rcases hr with h | h
    · exact ⟨r, by simpa [dedupEmit] using h, sameKey_refl r⟩
    · simp at h
  | cons s rest ih =>
    intro acc r hr
    unfold dedupEmit
    by_cases hc : acc.any (fun u => sameKey u s) = true
    · simp only [hc, if_true]
      rcases hr with h | h
      · exact ih acc r (Or.inl h)
      · rcases List.mem_cons.mp h with he | ht
        · subst he
          obtain ⟨t, htacc, hts⟩ := List.any_eq_true.mp hc
          exact ⟨t, dedupEmit_mono rest acc t htacc, hts⟩
        · exact ih acc r (Or.inr ht)
    · simp only [hc, if_false]
      rcases hr with h | h
      · exact ih (acc ++ [s]) r (Or.inl (List.mem_append_left _ h))
      · rcases List.mem_cons.mp h with he | ht
        · subst he
          exact ih (acc ++ [r]) r (Or.inl (by simp))
        · exact ih (acc ++ [s]) r (Or.inr ht)

/-- C3: when some probe fails at once while another probe is healthy,
the scan still ends in scan-complete, never scan-error, and every
service the healthy probe reports is emitted under its key. -/
theorem probe_isolation (probes : List (List ProbeOutcome))
    (pF pH : List ProbeOutcome) (hF : pF ∈ probes) (hH : pH ∈ probes)
    (hFf : startsFailed pF = true) (hHh : healthy pH = true) :
    (runScan probes).terminal = .scanComplete ∧
    ∀ r ∈ probeServices pH, ∃ t ∈ (runScan probes).emitted, sameKey t r = true := by
  have hnotall : probes.all startsFailed = false := by
    rcases hall : probes.all startsFailed with _ | _
    · rfl
    · have := List.all_eq_true.mp hall pH hH
      rw [healthy_not_startsFailed pH hHh] at this
      simp at this
  have hcond : (!probes.isEmpty && probes.all startsFailed) = false := by
    simp [hnotall]
  constructor
  · simp [runScan, hcond]
  · intro r hr
    have hjoin : r ∈ (probes.map probeServices).flatten :=
      List.mem_flatten.mpr ⟨probeServices pH, List.mem_map_of_mem probeServices hH, hr⟩
    have := dedupEmit_covers (probes.map probeServices).flatten [] r (Or.inr hjoin)
    simpa [runScan, hcond] using this

/-- Witness for C3: one probe that fails at its first outcome next to a
healthy probe that reports the printer service. -/
theorem probe_isolation_witness :
    (runScan [[ProbeOutcome.fail "bind error"],
      [ProbeOutcome.emit svcPrinter]]).terminal = TerminalEvent.scanComplete ∧
    ∃ t ∈ (runScan [[ProbeOutcome.fail "bind error"],
      [ProbeOutcome.emit svcPrinter]]).emitted, sameKey t svcPrinter = true := by
  have h := probe_isolation
    [[ProbeOutcome.fail "bind error"], [ProbeOutcome.emit svcPrinter]]
    [ProbeOutcome.fail "bind error"] [ProbeOutcome.emit svcPrinter]
    (by simp) (by simp) rfl rfl
  exact ⟨h.1, h.2 svcPrinter (by simp [probeServices])⟩

end Radar
